import Mathlib

/-!
Verification of the install orchestrator of the david-dotfiles repository.

The Go sources are shallowly embedded as pure Lean functions.  Filesystem
and network effects are abstracted into explicit environments that supply
the outcome of each external call, and each pipeline run returns the full
trace of events it emitted and actions it performed.
-/

namespace Catalog

/-- Bin represents a single binary to symlink from the extracted archive
(internal/catalog types). -/
structure Bin where
  src : String
  dst : String
deriving Repr, DecidableEq

/-- Program is a single installable entry from catalog.toml
(internal/catalog types). -/
structure Program where
  name : String
  repo : String
  assetPattern : String
  packages : List String
  bin : List Bin
deriving Repr, DecidableEq

end Catalog

namespace System

/-- SharePath returns the path to HOME/.local/share (internal/system). -/
def sharePath (home : String) : String := home ++ "/.local/share"

/-- BinPath returns the path to HOME/.local/bin (internal/system). -/
def binPath (home : String) : String := home ++ "/.local/bin"

end System

namespace GoStrings

/-- Model of strings.HasSuffix via list suffixes, so that concrete suffix
patterns can be compared with library lemmas. -/
def hasSuffixGo (s pat : String) : Bool := List.isSuffixOf pat.data s.data

/-- Accumulates the component after the last slash. -/
def baseNameAux : List Char → List Char → List Char
  | [], acc => acc
  | c :: rest, acc =>
      if c = '/' then baseNameAux rest [] else baseNameAux rest (acc ++ [c])

/-- Model of filepath.Base for the slash-separated paths this program
builds (no trailing slashes occur): the last slash-separated component. -/
def baseName (path : String) : String := String.mk (baseNameAux path.data [])

/-- Model of strings.TrimSpace: drop whitespace from both ends. -/
def trimSpaceGo (s : String) : String :=
  String.mk (((s.data.dropWhile Char.isWhitespace).reverse.dropWhile Char.isWhitespace).reverse)

/-- Model of strings.HasPrefix via list prefixes. -/
def hasPrefixGo (s pat : String) : Bool := List.isPrefixOf pat.data s.data

end GoStrings

namespace Extractor

open GoStrings

/-- Result of copying a raw binary: the destination file and its file mode
(internal/extractor copyBinary opens dst with mode 0755). -/
structure CopyResult where
  dst : String
  mode : Nat
deriving Repr, DecidableEq

/-- copyBinary copies the artifact unchanged into dstDir under its base
name, creating the destination with permission bits 0755
(internal/extractor copyBinary). -/
def copyBinary (srcPath dstDir : String) : CopyResult :=
  ⟨dstDir ++ "/" ++ baseName srcPath, 0o755⟩

/-- The extraction strategy chosen by Extract: a compressed tar unpack, a
zip unpack, or a raw copy. -/
inductive ExtractAction where
  | untar (compression : String)
  | unzip
  | copy (c : CopyResult)
deriving Repr, DecidableEq

/-- Extract dispatches on the suffix of the base name of the artifact path
(internal/extractor Extract).  Unknown suffixes fall through to a raw
binary copy; there is no unsupported-format error path. -/
def Extract (srcPath dstDir : String) : ExtractAction :=
  let name := baseName srcPath
  if hasSuffixGo name ".tar.gz" || hasSuffixGo name ".tgz" then .untar "gz"
  else if hasSuffixGo name ".tar.xz" || hasSuffixGo name ".txz" then .untar "xz"
  else if hasSuffixGo name ".tar.bz2" then .untar "bz2"
  else if hasSuffixGo name ".zip" then .unzip
  else .copy (copyBinary srcPath dstDir)

end Extractor

namespace Linker

/-- What Lstat can find at a path: a symbolic link with a target, a regular
file, or a directory. -/
inductive FsEntry where
  | symlink (target : String)
  | regular
  | dir
deriving Repr, DecidableEq

/-- A file system assigning to each path the entry found there, if any. -/
def Fs : Type := String → Option FsEntry

/-- Result of Link: the error, if any, and the resulting file system.  On
error the file system is returned unchanged. -/
structure LinkResult where
  err : Option String
  fs : Fs

/-- Link creates a symlink at binDir/dst pointing to src
(internal/linker Link).  An existing symlink at the destination is removed
and replaced; any other existing entry produces an error and nothing is
modified; an absent destination is created. -/
def Link (fs : Fs) (src binDir dst : String) : LinkResult :=
  let target := binDir ++ "/" ++ dst
  match fs target with
  | some (.symlink _) =>
      ⟨none, fun p => if p = target then some (.symlink src) else fs p⟩
  | some _ =>
      ⟨some (target ++ " already exists as a regular file"), fs⟩
  | none =>
      ⟨none, fun p => if p = target then some (.symlink src) else fs p⟩

end Linker

namespace Github

/-- Version extraction at the end of LatestVersion (internal/github): the
leading letter v is stripped from the tag name with strings.TrimPrefix,
and an empty result is an error. -/
def latestVersionOfTag (tagName : String) : Except String String :=
  let version :=
    if GoStrings.hasPrefixGo tagName "v" then String.mk (tagName.data.drop 1) else tagName
  if version = "" then .error "empty tag_name in GitHub response"
  else .ok version

end Github

namespace Installer

/-- State represents the current install state of a program
(internal/installer).  The awaitingBinSelection constructor is referenced
by the TUI as installer.StateAwaitingBinSelection (tui/progress.go); the
installer revision under version control here predates it, so it is
carried for the spec-modelled bin-selection pipeline. -/
inductive State where
  | pending
  | fetchingVersion
  | downloading
  | extracting
  | awaitingBinSelection
  | linking
  | done
  | skipped
  | error
deriving Repr, DecidableEq

/-- ProgressMsg is sent over the progress channel for each state
transition (internal/installer). -/
structure ProgressMsg where
  program : String
  state : State
  version : String
  err : Option String
deriving Repr, DecidableEq

/-- workerCount bounds the number of concurrently running installs
(internal/installer). -/
def workerCount : Nat := 3

/-- External actions a pipeline run performs, in order. -/
inductive Action where
  | resolveVersion
  | sleep (seconds : Nat)
  | downloadAttempt (i : Nat)
  | mkdirInstallDir
  | extractArtifact
  | writeMarker (version : String)
  | link (src dst : String)
deriving Repr, DecidableEq

/-- True exactly on download attempts. -/
def isDownloadAttempt : Action → Bool
  | .downloadAttempt _ => true
  | _ => false

/-- Number of download attempts in an action trace. -/
def numAttempts (acts : List Action) : Nat :=
  (acts.filter isDownloadAttempt).length

/-- The sequence of sleep durations in an action trace. -/
def delaysOf : List Action → List Nat
  | [] => []
  | .sleep d :: rest => d :: delaysOf rest
  | _ :: rest => delaysOf rest

/-- The (src, dst) pairs handed to the link publisher in an action
trace. -/
def linksOf : List Action → List (String × String)
  | [] => []
  | .link s d :: rest => (s, d) :: linksOf rest
  | _ :: rest => linksOf rest

/-- Environment for downloadWithRetry: whether the context is already
cancelled when the sleep before the given attempt would start, and the
outcome of the download at each attempt index. -/
structure RetryEnv where
  cancelledAt : Nat → Bool
  downloadAt : Nat → Except String String

/-- Outcome of downloadWithRetry: a temporary file path, a cancellation
(ctx.Err()), or the error of the last failed attempt. -/
inductive RetryOutcome where
  | ok (path : String)
  | cancelled
  | failed (lastErr : String)
deriving Repr, DecidableEq

/-- A retry outcome together with the actions performed on the way. -/
structure RetryResult where
  outcome : RetryOutcome
  actions : List Action
deriving Repr, DecidableEq

/-- The loop body of downloadWithRetry (internal/installer): with the given
number of loop iterations remaining, at the given attempt index.  Before
every attempt but the first the task either observes cancellation and
returns ctx.Err(), or sleeps 1 shifted left by (attempt - 1) seconds. -/
def downloadLoop (env : RetryEnv) : (remaining attempt : Nat) → (lastErr : Option String) → RetryResult
  | 0, _, lastErr => ⟨.failed (lastErr.getD ""), []⟩
  | r + 1, attempt, _ =>
    if attempt > 0 then
      if env.cancelledAt attempt then ⟨.cancelled, []⟩
      else
        match env.downloadAt attempt with
        | .ok path => ⟨.ok path, [.sleep (2 ^ (attempt - 1)), .downloadAttempt attempt]⟩
        | .error e =>
            let rest := downloadLoop env r (attempt + 1) (some e)
            ⟨rest.outcome, .sleep (2 ^ (attempt - 1)) :: .downloadAttempt attempt :: rest.actions⟩
    else
      match env.downloadAt attempt with
      | .ok path => ⟨.ok path, [.downloadAttempt attempt]⟩
      | .error e =>
          let rest := downloadLoop env r (attempt + 1) (some e)
          ⟨rest.outcome, .downloadAttempt attempt :: rest.actions⟩

/-- downloadWithRetry makes up to three attempts starting at attempt 0
(internal/installer downloadWithRetry). -/
def downloadWithRetry (env : RetryEnv) : RetryResult :=
  downloadLoop env 3 0 none

/-- The asset name: the asset pattern with every occurrence of the
version placeholder replaced by the resolved version
(internal/installer install). -/
def assetNameOf (pattern version : String) : String :=
  pattern.replace "\x7bversion\x7d" version

/-- The release download URL built by install (internal/installer): the
tag path component carries a hard-coded letter v before the version. -/
def downloadURLOf (repo version assetName : String) : String :=
  "https://github.com/" ++ repo ++ "/releases/download/v" ++ version ++ "/" ++ assetName

/-- The idempotency check of install (internal/installer): the marker file
was read successfully and its content, with surrounding whitespace
trimmed, equals the resolved version. -/
def markerMatches (marker : Option String) (version : String) : Bool :=
  match marker with
  | some contents => GoStrings.trimSpaceGo contents == version
  | none => false

/-- Environment for one pipeline run: outcomes of every external call the
run can make. -/
structure InstallEnv where
  home : String
  resolve : Except String String
  marker : Option String
  retry : RetryEnv
  mkdirResult : Except String Unit
  extractResult : Except String Unit
  markerWriteOk : Bool
  linkResult : Nat → Except String Unit
  binReply : Option (List Catalog.Bin)

/-- Result of one pipeline run: the emitted event trace, the performed
action trace, the on-disk marker contents afterwards, the download URL
that was resolved (if the run got that far), and the emitted bin-selection
requests (program name, extraction directory). -/
structure InstallResult where
  events : List ProgressMsg
  actions : List Action
  markerAfter : Option String
  url : Option String
  binRequests : List (String × String)
deriving Repr, DecidableEq

/-- The symlink loop of install (internal/installer): each bin entry has
its src resolved against the install directory with the version
placeholder substituted, then handed to linker.Link; the first failure
stops the loop with a wrapped error. -/
def linkLoop (linkResult : Nat → Except String Unit) (installDir version : String) :
    List Catalog.Bin → Nat → List Action × Option String
  | [], _ => ([], none)
  | b :: rest, i =>
    let src := installDir ++ "/" ++ b.src.replace "\x7bversion\x7d" version
    match linkResult i with
    | .ok _ =>
        let r := linkLoop linkResult installDir version rest (i + 1)
        (.link src b.dst :: r.1, r.2)
    | .error e => ([.link src b.dst], some ("link " ++ b.dst ++ ": " ++ e))

/-- install drives one program through the pipeline
(internal/installer install), with every external call answered by the
environment. -/
def install (env : InstallEnv) (p : Catalog.Program) : InstallResult :=
  let ev0 : List ProgressMsg := [⟨p.name, .fetchingVersion, "", none⟩]
  match env.resolve with
  | .error e =>
      ⟨ev0 ++ [⟨p.name, .error, "", some e⟩], [.resolveVersion], env.marker, none, []⟩
  | .ok version =>
    if markerMatches env.marker version then
      ⟨ev0 ++ [⟨p.name, .skipped, version, none⟩], [.resolveVersion], env.marker, none, []⟩
    else
      let installDir := System.sharePath env.home ++ "/" ++ p.name
      let url := downloadURLOf p.repo version (assetNameOf p.assetPattern version)
      let ev1 := ev0 ++ [⟨p.name, .downloading, version, none⟩]
      let r := downloadWithRetry env.retry
      let acts1 := Action.resolveVersion :: r.actions
      match r.outcome with
      | .cancelled =>
          ⟨ev1 ++ [⟨p.name, .error, "", some "download: context canceled"⟩], acts1, env.marker, some url, []⟩
      | .failed e =>
          ⟨ev1 ++ [⟨p.name, .error, "", some ("download: " ++ e)⟩], acts1, env.marker, some url, []⟩
      | .ok _path =>
          let ev2 := ev1 ++ [⟨p.name, .extracting, version, none⟩]
          match env.mkdirResult with
          | .error e =>
              ⟨ev2 ++ [⟨p.name, .error, "", some e⟩], acts1 ++ [.mkdirInstallDir], env.marker, some url, []⟩
          | .ok _ =>
            match env.extractResult with
            | .error e =>
                ⟨ev2 ++ [⟨p.name, .error, "", some ("extract: " ++ e)⟩],
                  acts1 ++ [.mkdirInstallDir, .extractArtifact], env.marker, some url, []⟩
            | .ok _ =>
                let markerAfter := if env.markerWriteOk then some version else env.marker
                let acts2 := acts1 ++ [.mkdirInstallDir, .extractArtifact, .writeMarker version]
                let ev3 := ev2 ++ [⟨p.name, .linking, version, none⟩]
                let lk := linkLoop env.linkResult installDir version p.bin 0
                match lk.2 with
                | some e =>
                    ⟨ev3 ++ [⟨p.name, .error, "", some e⟩], acts2 ++ lk.1, markerAfter, some url, []⟩
                | none =>
                    ⟨ev3 ++ [⟨p.name, .done, version, none⟩], acts2 ++ lk.1, markerAfter, some url, []⟩

/-- Modelled from the spec: the symlink loop over the pairs the operator
supplied through the bin-selection reply.  The reply pairs are linked
precisely as supplied; the first failure stops the loop. -/
def linkReplyLoop (linkResult : Nat → Except String Unit) :
    List Catalog.Bin → Nat → List Action × Option String
  | [], _ => ([], none)
  | b :: rest, i =>
    match linkResult i with
    | .ok _ =>
        let r := linkReplyLoop linkResult rest (i + 1)
        (.link b.src b.dst :: r.1, r.2)
    | .error e => ([.link b.src b.dst], some ("link " ++ b.dst ++ ": " ++ e))

/-- Modelled from the spec: the pipeline of the installer revision the TUI
is written against, whose source is not in the repository snapshot (the
TUI references installer.StateAwaitingBinSelection, ProgressMsg.InstallDir
and ProgressMsg.BinCh).  It behaves as install except that, when the
program descriptor has an empty link list, after extraction it emits one
awaiting-bin-selection event carrying the program name and the extraction
directory, blocks for exactly one reply, and resumes to linking with
precisely the pairs supplied in the reply (an absent reply, the channel
having been closed on cancellation, unblocks with an empty list). -/
def installModelled (env : InstallEnv) (p : Catalog.Program) : InstallResult :=
  let ev0 : List ProgressMsg := [⟨p.name, .fetchingVersion, "", none⟩]
  match env.resolve with
  | .error e =>
      ⟨ev0 ++ [⟨p.name, .error, "", some e⟩], [.resolveVersion], env.marker, none, []⟩
  | .ok version =>
    if markerMatches env.marker version then
      ⟨ev0 ++ [⟨p.name, .skipped, version, none⟩], [.resolveVersion], env.marker, none, []⟩
    else
      let installDir := System.sharePath env.home ++ "/" ++ p.name
      let url := downloadURLOf p.repo version (assetNameOf p.assetPattern version)
      let ev1 := ev0 ++ [⟨p.name, .downloading, version, none⟩]
      let r := downloadWithRetry env.retry
      let acts1 := Action.resolveVersion :: r.actions
      match r.outcome with
      | .cancelled =>
          ⟨ev1 ++ [⟨p.name, .error, "", some "download: context canceled"⟩], acts1, env.marker, some url, []⟩
      | .failed e =>
          ⟨ev1 ++ [⟨p.name, .error, "", some ("download: " ++ e)⟩], acts1, env.marker, some url, []⟩
      | .ok _path =>
          let ev2 := ev1 ++ [⟨p.name, .extracting, version, none⟩]
          match env.mkdirResult with
          | .error e =>
              ⟨ev2 ++ [⟨p.name, .error, "", some e⟩], acts1 ++ [.mkdirInstallDir], env.marker, some url, []⟩
          | .ok _ =>
            match env.extractResult with
            | .error e =>
                ⟨ev2 ++ [⟨p.name, .error, "", some ("extract: " ++ e)⟩],
                  acts1 ++ [.mkdirInstallDir, .extractArtifact], env.marker, some url, []⟩
            | .ok _ =>
                let markerAfter := if env.markerWriteOk then some version else env.marker
                let acts2 := acts1 ++ [.mkdirInstallDir, .extractArtifact, .writeMarker version]
                if p.bin.isEmpty then
                  let evA := ev2 ++ [⟨p.name, .awaitingBinSelection, version, none⟩]
                  let reply := env.binReply.getD []
                  let ev3 := evA ++ [⟨p.name, .linking, version, none⟩]
                  let lk := linkReplyLoop env.linkResult reply 0
                  match lk.2 with
                  | some e =>
                      ⟨ev3 ++ [⟨p.name, .error, "", some e⟩], acts2 ++ lk.1, markerAfter, some url,
                        [(p.name, installDir)]⟩
                  | none =>
                      ⟨ev3 ++ [⟨p.name, .done, version, none⟩], acts2 ++ lk.1, markerAfter, some url,
                        [(p.name, installDir)]⟩
                else
                  let ev3 := ev2 ++ [⟨p.name, .linking, version, none⟩]
                  let lk := linkLoop env.linkResult installDir version p.bin 0
                  match lk.2 with
                  | some e =>
                      ⟨ev3 ++ [⟨p.name, .error, "", some e⟩], acts2 ++ lk.1, markerAfter, some url, []⟩
                  | none =>
                      ⟨ev3 ++ [⟨p.name, .done, version, none⟩], acts2 ++ lk.1, markerAfter, some url, []⟩

/-- Abstract state of the bounded admission pool of Run
(internal/installer Run): how many selected programs still wait for a
slot, how many tasks currently hold a slot, and how many have finished. -/
structure PoolState where
  waiting : Nat
  active : Nat
  finished : Nat
deriving Repr, DecidableEq

/-- One scheduling step of Run (internal/installer Run).  The main loop
sends on the semaphore channel, acquiring a slot, strictly before spawning
the task goroutine, so a task emits its fetching-version event only while
holding a slot; the goroutine releases the slot when it exits, after its
terminal event.  acquire therefore requires a free slot; finish releases
one. -/
inductive PoolStep : PoolState → PoolState → Prop
  | acquire (s : PoolState) : 0 < s.waiting → s.active < workerCount →
      PoolStep s ⟨s.waiting - 1, s.active + 1, s.finished⟩
  | finish (s : PoolState) : 0 < s.active →
      PoolStep s ⟨s.waiting, s.active - 1, s.finished + 1⟩

/-- Pool states reachable from a run over n selected programs, none yet
admitted. -/
inductive PoolReachable (n : Nat) : PoolState → Prop
  | init : PoolReachable n ⟨n, 0, 0⟩
  | step {s t : PoolState} : PoolReachable n s → PoolStep s t → PoolReachable n t

end Installer

open Catalog GoStrings Extractor Linker Github Installer

/-- Helper: a string cannot carry two suffixes neither of which is a
suffix of the other. -/
theorem hasSuffixGo_not_both {s p q : String}
    (hpq : ¬(p.data <:+ q.data ∨ q.data <:+ p.data))
    (hp : hasSuffixGo s p = true) : hasSuffixGo s q = false := by
  unfold hasSuffixGo at hp ⊢
  rw [List.isSuffixOf_iff_suffix] at hp
  by_contra h
  rw [Bool.not_eq_false, List.isSuffixOf_iff_suffix] at h
  exact hpq (List.suffix_or_suffix_of_suffix hp h)

/-- Helper: the exact result of install when the resolved version matches
the persisted marker. -/
theorem install_skip_of_match (env : InstallEnv) (p : Catalog.Program) (version : String)
    (hres : env.resolve = .ok version)
    (hm : markerMatches env.marker version = true) :
    install env p =
      ⟨[⟨p.name, .fetchingVersion, "", none⟩, ⟨p.name, .skipped, version, none⟩],
        [.resolveVersion], env.marker, none, []⟩ := by
  unfold install
  rw [hres]
  simp [hm]

/-- Claim C1: when the persisted on-disk version marker, read successfully,
matches the resolved latest version, the pipeline emits a skipped terminal
event and returns with no download, extraction, marker write or linking;
the only network call is the version resolution. -/
theorem install_skipped_when_already_at_latest (env : InstallEnv) (p : Catalog.Program)
    (version : String) (hres : env.resolve = .ok version)
    (hm : markerMatches env.marker version = true) :
    install env p =
      ⟨[⟨p.name, .fetchingVersion, "", none⟩, ⟨p.name, .skipped, version, none⟩],
        [.resolveVersion], env.marker, none, []⟩ ∧
    numAttempts (install env p).actions = 0 ∧
    linksOf (install env p).actions = [] := by
  have h := install_skip_of_match env p version hres hm
  rw [h]
  exact ⟨rfl, rfl, rfl⟩

/-- Concrete environment: fzf already installed at the resolved version. -/
def envSkip : InstallEnv :=
  ⟨"/home/u", .ok "1.2.3", some "1.2.3\n", ⟨fun _ => false, fun _ => .error "unreached"⟩,
    .ok (), .ok (), true, fun _ => .ok (), none⟩

/-- Concrete program descriptor for fzf (catalog.toml example). -/
def pFzf : Catalog.Program :=
  ⟨"fzf", "junegunn/fzf", "fzf-\x7bversion\x7d-linux_amd64.tar.gz", [], [⟨"fzf", "fzf"⟩]⟩

/-- Witness for claim C1 at a concrete already-installed program. -/
theorem install_skipped_when_already_at_latest_witness :
    install envSkip pFzf =
      ⟨[⟨"fzf", .fetchingVersion, "", none⟩, ⟨"fzf", .skipped, "1.2.3", none⟩],
        [.resolveVersion], some "1.2.3\n", none, []⟩ ∧
    numAttempts (install envSkip pFzf).actions = 0 ∧
    linksOf (install envSkip pFzf).actions = [] :=
  install_skipped_when_already_at_latest envSkip pFzf "1.2.3" rfl (by decide)

/-- Claim C4: in every reachable scheduling state of Run, at most
workerCount = 3 program tasks hold a slot at once; a task emits its
fetching-version event only after admission and programs beyond the slot
count stay waiting. -/
theorem run_concurrency_bounded (n : Nat) (s : PoolState)
    (h : PoolReachable n s) : s.active ≤ workerCount := by
  induction h with
  | init => exact Nat.zero_le _
  | step _ hs ih =>
    cases hs with
    | acquire hw ha => exact ha
    | finish hA => exact Nat.le_trans (Nat.sub_le _ _) ih

/-- Witness for claim C4: with 5 selected programs, after three
admissions the pool is full and holds exactly workerCount tasks. -/
theorem run_concurrency_bounded_witness :
    (⟨2, 3, 0⟩ : PoolState).active ≤ workerCount :=
  run_concurrency_bounded 5 ⟨2, 3, 0⟩
    (PoolReachable.step
      (PoolReachable.step
        (PoolReachable.step PoolReachable.init
          (PoolStep.acquire ⟨5, 0, 0⟩ (by decide) (by decide)))
        (PoolStep.acquire ⟨4, 1, 0⟩ (by decide) (by decide)))
      (PoolStep.acquire ⟨3, 2, 0⟩ (by decide) (by decide)))

/-- Claim C5: extraction dispatch is a total, deterministic function of
the artifact filename: names ending in .tar.gz or .tgz unpack as gzip tar,
.tar.xz or .txz as xz tar, .tar.bz2 as bzip2 tar, .zip as zip, and every
other name is copied unchanged into the destination directory as a single
file created with mode 0755 (executable bits set); no unsupported-format
error path exists. -/
theorem extract_dispatch_exhaustive (srcPath dstDir : String) :
    ((hasSuffixGo (baseName srcPath) ".tar.gz" = true ∨
      hasSuffixGo (baseName srcPath) ".tgz" = true) →
        Extract srcPath dstDir = .untar "gz") ∧
    ((hasSuffixGo (baseName srcPath) ".tar.xz" = true ∨
      hasSuffixGo (baseName srcPath) ".txz" = true) →
        Extract srcPath dstDir = .untar "xz") ∧
    (hasSuffixGo (baseName srcPath) ".tar.bz2" = true →
        Extract srcPath dstDir = .untar "bz2") ∧
    (hasSuffixGo (baseName srcPath) ".zip" = true →
        Extract srcPath dstDir = .unzip) ∧
    (hasSuffixGo (baseName srcPath) ".tar.gz" = false →
     hasSuffixGo (baseName srcPath) ".tgz" = false →
     hasSuffixGo (baseName srcPath) ".tar.xz" = false →
     hasSuffixGo (baseName srcPath) ".txz" = false →
     hasSuffixGo (baseName srcPath) ".tar.bz2" = false →
     hasSuffixGo (baseName srcPath) ".zip" = false →
        Extract srcPath dstDir = .copy ⟨dstDir ++ "/" ++ baseName srcPath, 0o755⟩ ∧
        (copyBinary srcPath dstDir).mode &&& 0o111 ≠ 0) := by
  refine ⟨?_, ?_, ?_, ?_, ?_⟩
  · rintro (h | h) <;> simp [Extract, h]
  · rintro (h | h)
    · simp [Extract, h,
        hasSuffixGo_not_both (p := ".tar.xz") (q := ".tar.gz") (by decide) h,
        hasSuffixGo_not_both (p := ".tar.xz") (q := ".tgz") (by decide) h]
    · simp [Extract, h,
        hasSuffixGo_not_both (p := ".txz") (q := ".tar.gz") (by decide) h,
        hasSuffixGo_not_both (p := ".txz") (q := ".tgz") (by decide) h]
  · intro h
    simp [Extract, h,
      hasSuffixGo_not_both (p := ".tar.bz2") (q := ".tar.gz") (by decide) h,
      hasSuffixGo_not_both (p := ".tar.bz2") (q := ".tgz") (by decide) h,
      hasSuffixGo_not_both (p := ".tar.bz2") (q := ".tar.xz") (by decide) h,
      hasSuffixGo_not_both (p := ".tar.bz2") (q := ".txz") (by decide) h]
  · intro h
    simp [Extract, h,
      hasSuffixGo_not_both (p := ".zip") (q := ".tar.gz") (by decide) h,
      hasSuffixGo_not_both (p := ".zip") (q := ".tgz") (by decide) h,
      hasSuffixGo_not_both (p := ".zip") (q := ".tar.xz") (by decide) h,
      hasSuffixGo_not_both (p := ".zip") (q := ".txz") (by decide) h,
      hasSuffixGo_not_both (p := ".zip") (q := ".tar.bz2") (by decide) h]
  · intro h1 h2 h3 h4 h5 h6
    refine ⟨by simp [Extract, copyBinary, h1, h2, h3, h4, h5, h6], ?_⟩
    show (0o755 : Nat) &&& 0o111 ≠ 0
    decide

/-- Witness for claim C5: a suffix-free artifact name is raw-copied with
mode 0755, and a .tgz artifact is dispatched to the gzip tar strategy. -/
theorem extract_dispatch_exhaustive_witness :
    Extract "/tmp/tool-1.0.0" "/home/u/.local/share/tool" =
      .copy ⟨"/home/u/.local/share/tool" ++ "/" ++ baseName "/tmp/tool-1.0.0", 0o755⟩ ∧
    (copyBinary "/tmp/tool-1.0.0" "/home/u/.local/share/tool").mode &&& 0o111 ≠ 0 ∧
    Extract "/tmp/fzf-1.2.3.tgz" "/home/u/.local/share/fzf" = .untar "gz" := by
  refine ⟨?_, ?_, ?_⟩
  · exact ((extract_dispatch_exhaustive "/tmp/tool-1.0.0" "/home/u/.local/share/tool").2.2.2.2
      (by decide) (by decide) (by decide) (by decide) (by decide) (by decide)).1
  · exact ((extract_dispatch_exhaustive "/tmp/tool-1.0.0" "/home/u/.local/share/tool").2.2.2.2
      (by decide) (by decide) (by decide) (by decide) (by decide) (by decide)).2
  · exact (extract_dispatch_exhaustive "/tmp/fzf-1.2.3.tgz" "/home/u/.local/share/fzf").1
      (Or.inr (by decide))

/-- Claim C6: publishing a link whose destination holds an existing
symbolic link removes it and creates a new symlink, so the destination
thereafter points at the new source; publishing over an existing regular
file returns an error and leaves the file system unmodified. -/
theorem link_replaces_symlink_never_overwrites_regular
    (fs : Linker.Fs) (src binDir dst : String) :
    (∀ t, fs (binDir ++ "/" ++ dst) = some (.symlink t) →
        (Linker.Link fs src binDir dst).err = none ∧
        (Linker.Link fs src binDir dst).fs (binDir ++ "/" ++ dst) = some (.symlink src)) ∧
    (fs (binDir ++ "/" ++ dst) = some .regular →
        (Linker.Link fs src binDir dst).err ≠ none ∧
        (Linker.Link fs src binDir dst).fs = fs) := by
  constructor
  · intro t h
    simp [Linker.Link, h]
  · intro h
    simp [Linker.Link, h]

/-- Concrete file system: an old symlink at bin/rg and a regular file at
bin/fzf. -/
def fsLinkWitness : Linker.Fs := fun p =>
  if p = "/home/u/.local/bin/rg" then some (.symlink "/old/rg")
  else if p = "/home/u/.local/bin/fzf" then some .regular
  else none

/-- Witness for claim C6: replacing the symlink at bin/rg succeeds and
repoints it; publishing over the regular file at bin/fzf errors and
changes nothing. -/
theorem link_replaces_symlink_never_overwrites_regular_witness :
    ((Linker.Link fsLinkWitness "/new/rg" "/home/u/.local/bin" "rg").err = none ∧
     (Linker.Link fsLinkWitness "/new/rg" "/home/u/.local/bin" "rg").fs
        ("/home/u/.local/bin" ++ "/" ++ "rg") = some (.symlink "/new/rg")) ∧
    ((Linker.Link fsLinkWitness "/x" "/home/u/.local/bin" "fzf").err ≠ none ∧
     (Linker.Link fsLinkWitness "/x" "/home/u/.local/bin" "fzf").fs = fsLinkWitness) := by
  constructor
  · exact (link_replaces_symlink_never_overwrites_regular
      fsLinkWitness "/new/rg" "/home/u/.local/bin" "rg").1 "/old/rg" (by decide)
  · exact (link_replaces_symlink_never_overwrites_regular
      fsLinkWitness "/x" "/home/u/.local/bin" "fzf").2 (by decide)

/-- Helper: whenever the resolved version does not match the marker and
the retry loop returns a file, the first three events of install are
fetching-version, downloading, extracting. -/
theorem install_reaches_extracting (env : InstallEnv) (p : Catalog.Program)
    (version path : String)
    (hres : env.resolve = .ok version) (hm : markerMatches env.marker version = false)
    (hok : (downloadWithRetry env.retry).outcome = .ok path) :
    (install env p).events.take 3 =
      [⟨p.name, .fetchingVersion, "", none⟩, ⟨p.name, .downloading, version, none⟩,
       ⟨p.name, .extracting, version, none⟩] := by
  unfold install
  rw [hres]
  simp only [hm, Bool.false_eq_true, if_false, hok]
  split <;> try split
  all_goals try split
  all_goals simp

/-- Claim C2: the download step makes at most three attempts; before each
retry, never before the first attempt, it sleeps following the exponential
schedule 1, 2, 4 time units; a download failing twice then succeeding on
the third attempt proceeds to extraction, and one failing on all three
attempts returns the failure reason of the last attempt. -/
theorem download_retry_three_attempts_backoff (env : RetryEnv) :
    (numAttempts (downloadWithRetry env).actions ≤ 3 ∧
     delaysOf (downloadWithRetry env).actions =
       List.take (numAttempts (downloadWithRetry env).actions - 1) [1, 2, 4]) ∧
    (∀ e0 e1 path, env.downloadAt 0 = .error e0 → env.downloadAt 1 = .error e1 →
       env.downloadAt 2 = .ok path → env.cancelledAt 1 = false → env.cancelledAt 2 = false →
       (downloadWithRetry env).outcome = .ok path ∧
       (∀ (ienv : InstallEnv) (p : Catalog.Program) (version : String),
          ienv.retry = env → ienv.resolve = .ok version →
          markerMatches ienv.marker version = false →
          (install ienv p).events.take 3 =
            [⟨p.name, .fetchingVersion, "", none⟩, ⟨p.name, .downloading, version, none⟩,
             ⟨p.name, .extracting, version, none⟩])) ∧
    (∀ e0 e1 e2, env.downloadAt 0 = .error e0 → env.downloadAt 1 = .error e1 →
       env.downloadAt 2 = .error e2 → env.cancelledAt 1 = false → env.cancelledAt 2 = false →
       (downloadWithRetry env).outcome = .failed e2) := by
  refine ⟨?_, ?_, ?_⟩
  · unfold downloadWithRetry
    simp only [downloadLoop]
    cases h0 : env.downloadAt 0 with
    | ok path0 => simp [numAttempts, delaysOf, isDownloadAttempt]
    | error e0 =>
      cases hc1 : env.cancelledAt 1 with
      | true => simp [hc1, numAttempts, delaysOf, isDownloadAttempt]
      | false =>
        cases h1 : env.downloadAt 1 with
        | ok path1 => simp [hc1, h1, numAttempts, delaysOf, isDownloadAttempt]
        | error e1 =>
          cases hc2 : env.cancelledAt 2 with
          | true => simp [hc1, hc2, h1, numAttempts, delaysOf, isDownloadAttempt]
          | false =>
            cases h2 : env.downloadAt 2 with
            | ok path2 => simp [hc1, hc2, h1, h2, numAttempts, delaysOf, isDownloadAttempt]
            | error e2 => simp [hc1, hc2, h1, h2, numAttempts, delaysOf, isDownloadAttempt]
  · intro e0 e1 path h0 h1 h2 hc1 hc2
    have hout : (downloadWithRetry env).outcome = .ok path := by
      unfold downloadWithRetry
      simp only [downloadLoop]
      simp [h0, h1, h2, hc1, hc2]
    refine ⟨hout, ?_⟩
    intro ienv p version hret hres hm
    exact install_reaches_extracting ienv p version path hres hm (by rw [hret]; exact hout)
  · intro e0 e1 e2 h0 h1 h2 hc1 hc2
    unfold downloadWithRetry
    simp only [downloadLoop]
    simp [h0, h1, h2, hc1, hc2]

/-- Retry environment failing twice then succeeding. -/
def envRetryFFS : RetryEnv :=
  ⟨fun _ => false, fun i => if i = 0 then .error "f0" else if i = 1 then .error "f1" else .ok "/tmp/a"⟩

/-- Retry environment failing on all three attempts. -/
def envRetryFFF : RetryEnv :=
  ⟨fun _ => false, fun i => if i = 0 then .error "f0" else if i = 1 then .error "f1" else .error "f2"⟩

/-- Concrete program descriptor for ripgrep. -/
def pRg : Catalog.Program :=
  ⟨"ripgrep", "BurntSushi/ripgrep", "ripgrep-\x7bversion\x7d-x86_64.tar.gz", [],
    [⟨"ripgrep-\x7bversion\x7d/rg", "rg"⟩]⟩

/-- Install environment whose downloads fail twice then succeed. -/
def envInstFFS : InstallEnv :=
  ⟨"/home/u", .ok "14.1.0", none, envRetryFFS, .ok (), .ok (), true, fun _ => .ok (), none⟩

/-- Witness for claim C2: with two failures then a success the retry loop
returns the file and install reaches extracting; with three failures it
returns the last error. -/
theorem download_retry_three_attempts_backoff_witness :
    ((downloadWithRetry envRetryFFS).outcome = .ok "/tmp/a" ∧
     (install envInstFFS pRg).events.take 3 =
       [⟨"ripgrep", .fetchingVersion, "", none⟩, ⟨"ripgrep", .downloading, "14.1.0", none⟩,
        ⟨"ripgrep", .extracting, "14.1.0", none⟩]) ∧
    (downloadWithRetry envRetryFFF).outcome = .failed "f2" := by
  have h := (download_retry_three_attempts_backoff envRetryFFS).2.1 "f0" "f1" "/tmp/a"
    rfl rfl rfl rfl rfl
  exact ⟨⟨h.1, h.2 envInstFFS pRg "14.1.0" rfl rfl rfl⟩,
    (download_retry_three_attempts_backoff envRetryFFF).2.2 "f0" "f1" "f2" rfl rfl rfl rfl rfl⟩

/-- Claim C7: if the run is cancelled while the task sleeps between retry
attempts, the sleep is abandoned and the download step returns immediately
with the cancellation as the failure reason, making no further attempts;
install surfaces it as a download error event. -/
theorem download_retry_cancelled_during_sleep (env : RetryEnv) :
    (∀ e0, env.downloadAt 0 = .error e0 → env.cancelledAt 1 = true →
       downloadWithRetry env = ⟨.cancelled, [.downloadAttempt 0]⟩) ∧
    (∀ e0 e1, env.downloadAt 0 = .error e0 → env.cancelledAt 1 = false →
       env.downloadAt 1 = .error e1 → env.cancelledAt 2 = true →
       downloadWithRetry env =
         ⟨.cancelled, [.downloadAttempt 0, .sleep 1, .downloadAttempt 1]⟩) ∧
    (∀ (ienv : InstallEnv) (p : Catalog.Program) (version e0 : String),
       ienv.retry = env → ienv.resolve = .ok version →
       markerMatches ienv.marker version = false →
       env.downloadAt 0 = .error e0 → env.cancelledAt 1 = true →
       (install ienv p).events =
         [⟨p.name, .fetchingVersion, "", none⟩, ⟨p.name, .downloading, version, none⟩,
          ⟨p.name, .error, "", some "download: context canceled"⟩] ∧
       (install ienv p).actions = [.resolveVersion, .downloadAttempt 0]) := by
  have hfst : ∀ e0, env.downloadAt 0 = .error e0 → env.cancelledAt 1 = true →
      downloadWithRetry env = ⟨.cancelled, [.downloadAttempt 0]⟩ := by
    intro e0 h0 hc1
    unfold downloadWithRetry
    simp only [downloadLoop]
    simp [h0, hc1]
  refine ⟨hfst, ?_, ?_⟩
  · intro e0 e1 h0 hc1 h1 hc2
    unfold downloadWithRetry
    simp only [downloadLoop]
    simp [h0, hc1, h1, hc2]
  · intro ienv p version e0 hret hres hm h0 hc1
    have hcan := hfst e0 h0 hc1
    unfold install
    rw [hres]
    simp only [hm, Bool.false_eq_true, if_false]
    rw [hret, hcan]
    simp

/-- Retry environment whose first attempt fails and whose context is
cancelled at the sleep before the second attempt. -/
def envRetryCancel : RetryEnv :=
  ⟨fun i => i == 1, fun _ => .error "connection reset"⟩

/-- Install environment around envRetryCancel. -/
def envInstCancel : InstallEnv :=
  ⟨"/home/u", .ok "2.0.0", none, envRetryCancel, .ok (), .ok (), true, fun _ => .ok (), none⟩

/-- Witness for claim C7: the cancelled sleep abandons the retry after one
attempt and install emits the cancellation error event. -/
theorem download_retry_cancelled_during_sleep_witness :
    downloadWithRetry envRetryCancel = ⟨.cancelled, [.downloadAttempt 0]⟩ ∧
    (install envInstCancel pFzf).events =
      [⟨"fzf", .fetchingVersion, "", none⟩, ⟨"fzf", .downloading, "2.0.0", none⟩,
       ⟨"fzf", .error, "", some "download: context canceled"⟩] ∧
    (install envInstCancel pFzf).actions = [.resolveVersion, .downloadAttempt 0] := by
  have h := download_retry_cancelled_during_sleep envRetryCancel
  exact ⟨h.1 "connection reset" rfl rfl,
    h.2.2 envInstCancel pFzf "2.0.0" "connection reset" rfl rfl rfl rfl rfl⟩

/-- Replaces the marker contents of an environment, all else equal. -/
def setMarker (env : InstallEnv) (m : Option String) : InstallEnv :=
  ⟨env.home, env.resolve, m, env.retry, env.mkdirResult, env.extractResult,
    env.markerWriteOk, env.linkResult, env.binReply⟩

/-- Claim C8: when the version marker is missing (read error) or its
contents do not match the resolved version, the pipeline emits and does
exactly what it would for a never-installed program, continuing to
downloading, and the failed read is never surfaced as an error. -/
theorem install_fresh_on_missing_or_stale_marker (env : InstallEnv) (p : Catalog.Program)
    (version : String) (hres : env.resolve = .ok version)
    (hm : markerMatches env.marker version = false) :
    (install env p).events = (install (setMarker env none) p).events ∧
    (install env p).actions = (install (setMarker env none) p).actions ∧
    (install env p).binRequests = (install (setMarker env none) p).binRequests ∧
    (install env p).events.take 2 =
      [⟨p.name, .fetchingVersion, "", none⟩, ⟨p.name, .downloading, version, none⟩] := by
  have hm2 : markerMatches (none : Option String) version = false := rfl
  unfold install setMarker
  simp only [hres, hm, hm2, Bool.false_eq_true, if_false]
  refine ⟨?_, ?_, ?_, ?_⟩ <;> (repeat' split) <;> simp

/-- Install environment holding a stale marker from an older version. -/
def envStale : InstallEnv :=
  ⟨"/home/u", .ok "2.0.0", some "1.0.0", ⟨fun _ => false, fun _ => .ok "/tmp/b"⟩,
    .ok (), .ok (), true, fun _ => .ok (), none⟩

/-- Witness for claim C8: with a stale marker the run behaves exactly like
the marker-missing run and continues to downloading. -/
theorem install_fresh_on_missing_or_stale_marker_witness :
    (install envStale pFzf).events = (install (setMarker envStale none) pFzf).events ∧
    (install envStale pFzf).actions = (install (setMarker envStale none) pFzf).actions ∧
    (install envStale pFzf).binRequests = (install (setMarker envStale none) pFzf).binRequests ∧
    (install envStale pFzf).events.take 2 =
      [⟨"fzf", .fetchingVersion, "", none⟩, ⟨"fzf", .downloading, "2.0.0", none⟩] :=
  install_fresh_on_missing_or_stale_marker envStale pFzf "2.0.0" rfl (by decide)

/-- Replaces the marker-write success flag of an environment. -/
def setMarkerWrite (env : InstallEnv) (b : Bool) : InstallEnv :=
  ⟨env.home, env.resolve, env.marker, env.retry, env.mkdirResult, env.extractResult,
    b, env.linkResult, env.binReply⟩

/-- Claim C9: the marker is written after successful extraction and before
any link, its write error is ignored, and a later link failure does not
remove or revert it, so a re-run at the same resolved version ends in
skipped without publishing the missing links. -/
theorem marker_written_before_links_and_never_reverted (env : InstallEnv)
    (p : Catalog.Program) (version path e : String) (b : Catalog.Bin)
    (rest : List Catalog.Bin)
    (hres : env.resolve = .ok version)
    (hm : markerMatches env.marker version = false)
    (hd0 : env.retry.downloadAt 0 = .ok path)
    (hmk : env.mkdirResult = .ok ())
    (hex : env.extractResult = .ok ())
    (hw : env.markerWriteOk = true)
    (hbin : p.bin = b :: rest)
    (hl0 : env.linkResult 0 = .error e) :
    install env p =
      ⟨[⟨p.name, .fetchingVersion, "", none⟩, ⟨p.name, .downloading, version, none⟩,
        ⟨p.name, .extracting, version, none⟩, ⟨p.name, .linking, version, none⟩,
        ⟨p.name, .error, "", some ("link " ++ b.dst ++ ": " ++ e)⟩],
       [.resolveVersion, .downloadAttempt 0, .mkdirInstallDir, .extractArtifact,
        .writeMarker version,
        .link (System.sharePath env.home ++ "/" ++ p.name ++ "/" ++
          b.src.replace "\x7bversion\x7d" version) b.dst],
       some version,
       some (downloadURLOf p.repo version (assetNameOf p.assetPattern version)), []⟩ ∧
    (∀ (env2 : InstallEnv), env2.resolve = .ok version →
       env2.marker = some version → trimSpaceGo version = version →
       install env2 p =
         ⟨[⟨p.name, .fetchingVersion, "", none⟩, ⟨p.name, .skipped, version, none⟩],
          [.resolveVersion], some version, none, []⟩) ∧
    ((install (setMarkerWrite env false) p).events = (install env p).events ∧
     (install (setMarkerWrite env false) p).actions = (install env p).actions) := by
  have hdw : downloadWithRetry env.retry = ⟨.ok path, [.downloadAttempt 0]⟩ := by
    unfold downloadWithRetry
    simp only [downloadLoop]
    simp [hd0]
  refine ⟨?_, ?_, ?_⟩
  · unfold install
    rw [hres]
    simp only [hm, Bool.false_eq_true, if_false, hdw, hmk, hex, hw]
    simp [linkLoop, hbin, hl0]
  · intro env2 hres2 hmark2 htrim
    have hmm : markerMatches env2.marker version = true := by
      rw [hmark2]
      simp [markerMatches, htrim]
    have h := install_skip_of_match env2 p version hres2 hmm
    rw [hmark2] at h
    exact h
  · unfold install setMarkerWrite
    rw [hres]
    simp only [hm, Bool.false_eq_true, if_false, hdw, hmk, hex]
    simp [linkLoop, hbin, hl0]

/-- Install environment where the only link publication fails. -/
def envLinkFail : InstallEnv :=
  ⟨"/home/u", .ok "1.4.0", none, ⟨fun _ => false, fun _ => .ok "/tmp/zoxide.tar.gz"⟩,
    .ok (), .ok (), true, fun _ => .error "exists", none⟩

/-- Install environment for the re-run after the failed-link run. -/
def envRerun : InstallEnv :=
  ⟨"/home/u", .ok "1.4.0", some "1.4.0", ⟨fun _ => false, fun _ => .error "unreached"⟩,
    .ok (), .ok (), true, fun _ => .ok (), none⟩

/-- Concrete program descriptor for zoxide. -/
def pZox : Catalog.Program :=
  ⟨"zoxide", "ajeetdsouza/zoxide", "zoxide-\x7bversion\x7d.tar.gz", [], [⟨"zoxide", "zoxide"⟩]⟩

/-- Witness for claim C9: the failed-link run still leaves the marker at
the new version, and the re-run is skipped without publishing links. -/
theorem marker_written_before_links_and_never_reverted_witness :
    (install envLinkFail pZox).markerAfter = some "1.4.0" ∧
    install envRerun pZox =
      ⟨[⟨"zoxide", .fetchingVersion, "", none⟩, ⟨"zoxide", .skipped, "1.4.0", none⟩],
       [.resolveVersion], some "1.4.0", none, []⟩ := by
  have h := marker_written_before_links_and_never_reverted envLinkFail pZox
    "1.4.0" "/tmp/zoxide.tar.gz" "exists" ⟨"zoxide", "zoxide"⟩ []
    rfl rfl rfl rfl rfl rfl rfl rfl
  exact ⟨by rw [h.1], h.2.1 envRerun rfl rfl (by decide)⟩

/-- Claim C10: the download URL is exactly the hard-coded release path
with a literal v before the resolved version and the asset pattern with
every version placeholder substituted; the v is present even when the raw
release tag carries no v, since the resolver strips a leading v and the
URL re-adds one unconditionally. -/
theorem download_url_hardcodes_v (p : Catalog.Program) :
    (∀ version,
       downloadURLOf p.repo version (assetNameOf p.assetPattern version) =
         "https://github.com/" ++ p.repo ++ "/releases/download/v" ++ version ++ "/" ++
           p.assetPattern.replace "\x7bversion\x7d" version) ∧
    (∀ tag, hasPrefixGo tag "v" = false → tag ≠ "" →
       latestVersionOfTag tag = .ok tag) ∧
    (∀ (env : InstallEnv) (version : String),
       env.resolve = .ok version → markerMatches env.marker version = false →
       (install env p).url =
         some (downloadURLOf p.repo version (assetNameOf p.assetPattern version))) := by
  refine ⟨fun version => rfl, ?_, ?_⟩
  · intro tag h1 h2
    unfold latestVersionOfTag
    rw [h1]
    simp [h2]
  · intro env version hres hm
    unfold install
    rw [hres]
    simp only [hm, Bool.false_eq_true, if_false]
    (repeat' split) <;> simp

/-- Witness for claim C10 at the bare ripgrep tag 14.1.0: the resolver
keeps the tag unchanged and the URL still carries the hard-coded v. -/
theorem download_url_hardcodes_v_witness :
    downloadURLOf pRg.repo "14.1.0" (assetNameOf pRg.assetPattern "14.1.0") =
      "https://github.com/" ++ pRg.repo ++ "/releases/download/v" ++ "14.1.0" ++ "/" ++
        pRg.assetPattern.replace "\x7bversion\x7d" "14.1.0" ∧
    latestVersionOfTag "14.1.0" = .ok "14.1.0" ∧
    (install envInstFFS pRg).url =
      some (downloadURLOf pRg.repo "14.1.0" (assetNameOf pRg.assetPattern "14.1.0")) := by
  have h := download_url_hardcodes_v pRg
  exact ⟨h.1 "14.1.0", h.2.1 "14.1.0" (by decide) (by decide),
    h.2.2 envInstFFS "14.1.0" rfl rfl⟩

/-- Helper: when every reply link publishes successfully, the reply loop
links precisely the supplied pairs. -/
theorem linkReplyLoop_all_ok (lr : Nat → Except String Unit) :
    ∀ (bins : List Catalog.Bin) (start : Nat),
      (∀ i, i < bins.length → lr (start + i) = .ok ()) →
      linkReplyLoop lr bins start = (bins.map (fun b => Action.link b.src b.dst), none) := by
  intro bins
  induction bins with
  | nil => intro start h; rfl
  | cons b rest ih =>
    intro start h
    have h0 : lr start = .ok () := by
      have := h 0 (by simp)
      simpa using this
    have hrest : linkReplyLoop lr rest (start + 1) =
        (rest.map (fun b => Action.link b.src b.dst), none) := by
      refine ih (start + 1) ?_
      intro i hi
      have e : start + 1 + i = start + (i + 1) := by omega
      rw [e]
      refine h (i + 1) ?_
      simp only [List.length_cons]
      omega
    unfold linkReplyLoop
    rw [h0, hrest]
    simp

/-- Helper: the links of a pure link-action list are its pairs. -/
theorem linksOf_map_link (bins : List Catalog.Bin) :
    linksOf (bins.map (fun b => Action.link b.src b.dst)) =
      bins.map (fun b => (b.src, b.dst)) := by
  induction bins with
  | nil => rfl
  | cons b rest ih => simp [linksOf, ih]

/-- Claim C3: for a program whose descriptor has an empty link list, the
modelled orchestrator enters awaiting-bin-selection after extraction,
emits exactly one bin-selection request carrying the program name and the
extraction directory, and resumes to linking with precisely the pairs
supplied in the reply; a reply of zero links still reaches done having
published nothing. -/
theorem bin_selection_round_trip (env : InstallEnv) (p : Catalog.Program)
    (version path : String) (bins : List Catalog.Bin)
    (hres : env.resolve = .ok version)
    (hm : markerMatches env.marker version = false)
    (hd0 : env.retry.downloadAt 0 = .ok path)
    (hmk : env.mkdirResult = .ok ())
    (hex : env.extractResult = .ok ())
    (hw : env.markerWriteOk = true)
    (hbin : p.bin = [])
    (hreply : env.binReply = some bins)
    (hlinks : ∀ i, i < bins.length → env.linkResult i = .ok ()) :
    installModelled env p =
      ⟨[⟨p.name, .fetchingVersion, "", none⟩, ⟨p.name, .downloading, version, none⟩,
        ⟨p.name, .extracting, version, none⟩, ⟨p.name, .awaitingBinSelection, version, none⟩,
        ⟨p.name, .linking, version, none⟩, ⟨p.name, .done, version, none⟩],
       [.resolveVersion, .downloadAttempt 0, .mkdirInstallDir, .extractArtifact,
        .writeMarker version] ++ bins.map (fun b => Action.link b.src b.dst),
       some version,
       some (downloadURLOf p.repo version (assetNameOf p.assetPattern version)),
       [(p.name, System.sharePath env.home ++ "/" ++ p.name)]⟩ ∧
    linksOf (installModelled env p).actions = bins.map (fun b => (b.src, b.dst)) := by
  have hdw : downloadWithRetry env.retry = ⟨.ok path, [.downloadAttempt 0]⟩ := by
    unfold downloadWithRetry
    simp only [downloadLoop]
    simp [hd0]
  have hrl := linkReplyLoop_all_ok env.linkResult bins 0 (by simpa using hlinks)
  have hmain : installModelled env p =
      ⟨[⟨p.name, .fetchingVersion, "", none⟩, ⟨p.name, .downloading, version, none⟩,
        ⟨p.name, .extracting, version, none⟩, ⟨p.name, .awaitingBinSelection, version, none⟩,
        ⟨p.name, .linking, version, none⟩, ⟨p.name, .done, version, none⟩],
       [.resolveVersion, .downloadAttempt 0, .mkdirInstallDir, .extractArtifact,
        .writeMarker version] ++ bins.map (fun b => Action.link b.src b.dst),
       some version,
       some (downloadURLOf p.repo version (assetNameOf p.assetPattern version)),
       [(p.name, System.sharePath env.home ++ "/" ++ p.name)]⟩ := by
    unfold installModelled
    rw [hres]
    simp only [hm, Bool.false_eq_true, if_false, hdw, hmk, hex, hw, hbin, hreply]
    simp [hrl]
  refine ⟨hmain, ?_⟩
  rw [hmain]
  simp [linksOf, linksOf_map_link bins]

/-- Concrete program descriptor with an empty link list. -/
def pNoBin : Catalog.Program :=
  ⟨"lazygit", "jesseduffield/lazygit", "lazygit_\x7bversion\x7d.tar.gz", [], []⟩

/-- Install environment whose bin-selection reply supplies zero links. -/
def envBinEmptyReply : InstallEnv :=
  ⟨"/home/u", .ok "0.44.1", none, ⟨fun _ => false, fun _ => .ok "/tmp/lg.tar.gz"⟩,
    .ok (), .ok (), true, fun _ => .ok (), some []⟩

/-- Install environment whose bin-selection reply supplies one link. -/
def envBinOneReply : InstallEnv :=
  ⟨"/home/u", .ok "0.44.1", none, ⟨fun _ => false, fun _ => .ok "/tmp/lg.tar.gz"⟩,
    .ok (), .ok (), true, fun _ => .ok (),
    some [⟨"/home/u/.local/share/lazygit/lazygit", "lg"⟩]⟩

/-- Witness for claim C3: the empty reply still reaches done publishing
nothing with exactly one bin-selection request emitted, and a one-link
reply publishes precisely that pair. -/
theorem bin_selection_round_trip_witness :
    (installModelled envBinEmptyReply pNoBin).events =
      [⟨"lazygit", .fetchingVersion, "", none⟩, ⟨"lazygit", .downloading, "0.44.1", none⟩,
       ⟨"lazygit", .extracting, "0.44.1", none⟩,
       ⟨"lazygit", .awaitingBinSelection, "0.44.1", none⟩,
       ⟨"lazygit", .linking, "0.44.1", none⟩, ⟨"lazygit", .done, "0.44.1", none⟩] ∧
    (installModelled envBinEmptyReply pNoBin).binRequests =
      [("lazygit", "/home/u/.local/share/lazygit")] ∧
    linksOf (installModelled envBinEmptyReply pNoBin).actions = [] ∧
    linksOf (installModelled envBinOneReply pNoBin).actions =
      [("/home/u/.local/share/lazygit/lazygit", "lg")] := by
  have h0 := bin_selection_round_trip envBinEmptyReply pNoBin "0.44.1" "/tmp/lg.tar.gz" []
    rfl rfl rfl rfl rfl rfl rfl rfl (fun i hi => absurd hi (by simp))
  have h1 := bin_selection_round_trip envBinOneReply pNoBin "0.44.1" "/tmp/lg.tar.gz"
    [⟨"/home/u/.local/share/lazygit/lazygit", "lg"⟩]
    rfl rfl rfl rfl rfl rfl rfl rfl (fun i hi => rfl)
  refine ⟨by rw [h0.1]; rfl, by rw [h0.1]; rfl, by rw [h0.2]; rfl, by rw [h1.2]; rfl⟩
